import Mathlib

/-!
Shallow embedding of the houselifenotes repository's computational core:
the cost aggregator (`loadCosts` in the CostDashboard component), the
house-lifecycle derivations (`profit`, `yearsOwned`, cost-per-year render
guard), the currency mapping (`src/lib/currency.ts`), the room-type
pluralizer (`pluralizeRoomType`/`pluralizeWord` in the HouseDetails
component), the `soft_delete_appliance` stored procedure, and the
`FileUpload.handleFileSelect` handler.

Monetary amounts and other JS numbers are modelled as `ℚ`; a cost field
that may arrive as null/undefined/non-numeric (where the code applies
`Number(x) || 0`) is modelled as `Option ℚ`, `none` standing for any value
that coalesces to 0. JS strings are modelled as `List Char` where
character-level operations matter (the pluralizer) and as `String`
elsewhere.
-/

namespace HouseLifeNotes

/-- JS `a || b` on numbers (no NaN in the `ℚ` model: `none` already
covers NaN-producing inputs upstream). `0` is falsy. -/
def jsOrQ (a b : ℚ) : ℚ := if a = 0 then b else a

/-- Truthiness of a nullable JS integer: null/undefined and 0 are falsy. -/
def optTruthyInt (o : Option Int) : Bool := o.elim false (fun n => decide (n ≠ 0))

/-- Truthiness of a nullable JS number: null/undefined and 0 are falsy. -/
def optTruthyQ (o : Option ℚ) : Bool := o.elim false (fun q => decide (q ≠ 0))

/-- The `Country` union type of `src/lib/currency.ts`. -/
inductive Country where
  | unitedStates
  | canada
  | mexico
  | unitedKingdom
  | other
deriving DecidableEq, Repr

/-- `CurrencyInfo` of `src/lib/currency.ts`. -/
structure CurrencyInfo where
  code : String
  symbol : String
  locale : String
deriving DecidableEq, Repr

/-- `currencyMap` of `src/lib/currency.ts`. The United Kingdom symbol is
transcribed byte-for-byte from the source file, which contains the
two-character sequence U+00C2 U+00A3 (`"Â£"`), not the single pound sign. -/
def currencyMap : Country → CurrencyInfo
  | .unitedStates => ⟨"USD", "$", "en-US"⟩
  | .canada => ⟨"CAD", "C$", "en-CA"⟩
  | .mexico => ⟨"MXN", "MX$", "es-MX"⟩
  | .unitedKingdom => ⟨"GBP", "Â£", "en-GB"⟩
  | .other => ⟨"USD", "$", "en-US"⟩

/-- The argument record `formatCurrency` builds and hands to
`Intl.NumberFormat(locale, options).format(amount)`; the host
internationalization library performs the final rendering, so the
embedding exposes exactly what the repository code passes to it. -/
structure FormatSpec where
  locale : String
  currency : String
  minimumFractionDigits : Nat
  maximumFractionDigits : Nat
  amount : ℚ
deriving DecidableEq, Repr

/-- `formatCurrency` of `src/lib/currency.ts`: country defaulting via
`country || 'United States'` (null/undefined falsy), fraction-digit
defaults `max ?? 2` and `min ?? Math.min(2, max)`. -/
def formatCurrency (amount : ℚ) (country : Option Country)
    (minFDOpt maxFDOpt : Option Nat) : FormatSpec :=
  let currencyInfo := currencyMap (country.getD .unitedStates)
  let maxFractionDigits := maxFDOpt.getD 2
  let minFractionDigits := minFDOpt.getD (min 2 maxFractionDigits)
  ⟨currencyInfo.locale, currencyInfo.code, minFractionDigits, maxFractionDigits, amount⟩

/-- `getCurrencySymbol` of `src/lib/currency.ts`. -/
def getCurrencySymbol (country : Option Country) : String :=
  (currencyMap (country.getD .unitedStates)).symbol

/-- The `houses` row selected by `loadCosts` (the `HouseInfo` interface of
the CostDashboard component). `price_paid` is typed non-null in the
component. -/
structure HouseInfo where
  year_bought : Option Int
  year_sold : Option Int
  price_paid : ℚ
  price_sold : Option ℚ
  square_footage : Option ℚ
  country : Option Country
deriving DecidableEq, Repr

/-- An `interior_appliances` row as selected by `loadCosts`
(`purchase_cost, installation_cost, id`). -/
structure ApplianceRow where
  purchase_cost : Option ℚ
  installation_cost : Option ℚ
  id : Nat
deriving DecidableEq, Repr

/-- An `exterior_features` row as selected by `loadCosts` (`build_cost`). -/
structure FeatureRow where
  build_cost : Option ℚ
deriving DecidableEq, Repr

/-- An `exterior_maintenance` row as selected by `loadCosts` (`cost`). -/
structure MaintenanceRow where
  cost : Option ℚ
deriving DecidableEq, Repr

/-- An `appliance_repairs` row as selected by `loadCosts` (`repair_cost`). -/
structure RepairRow where
  repair_cost : Option ℚ
deriving DecidableEq, Repr

/-- The shape of a resolved supabase query: `{ data, error }`. A failed
read resolves with `data = null` and a non-null `error`; the client
returns this record rather than rejecting the promise. -/
structure SupaResponse (α : Type) where
  data : Option α
  error : Option String

/-- The `CostBreakdown` interface of the CostDashboard component. -/
structure CostBreakdown where
  housePurchase : ℚ
  appliances : ℚ
  applianceInstallation : ℚ
  applianceRepairs : ℚ
  exteriorFeatures : ℚ
  exteriorMaintenance : ℚ
  totalCost : ℚ
deriving DecidableEq, Repr

/-- What `loadCosts` does on its non-throwing path: the breakdown it
passes to `setCosts`, and whether the second-phase repair query was
issued at all. -/
structure LoadResult where
  costs : CostBreakdown
  repairLookupIssued : Bool
deriving DecidableEq, Repr

/-- JS `rows.reduce((sum, r) => sum + (Number(c) || 0), 0)` over the cost
field of each row. -/
def sumCoalesced (rows : List (Option ℚ)) : ℚ :=
  rows.foldl (fun sum c => sum + c.getD 0) 0

/-- `loadCosts` of the CostDashboard component, as a function of the four
phase-1 query responses and the phase-2 repair query (issued only when
the appliance list is non-empty, on the ids of the fetched appliances).
Each aggregate mirrors `data?.reduce(...) || 0`; `housePurchase` mirrors
`houseRes.data?.price_paid || 0`. No `error` field is ever consulted,
exactly as in the source. -/
def loadCosts (houseRes : SupaResponse HouseInfo)
    (appliancesRes : SupaResponse (List ApplianceRow))
    (featuresRes : SupaResponse (List FeatureRow))
    (maintenanceRes : SupaResponse (List MaintenanceRow))
    (fetchRepairs : List Nat → SupaResponse (List RepairRow)) : LoadResult :=
  let housePurchase :=
    match houseRes.data with
    | some h => jsOrQ h.price_paid 0
    | none => 0
  let appliances :=
    match appliancesRes.data with
    | some as => jsOrQ (sumCoalesced (as.map (·.purchase_cost))) 0
    | none => 0
  let applianceInstallation :=
    match appliancesRes.data with
    | some as => jsOrQ (sumCoalesced (as.map (·.installation_cost))) 0
    | none => 0
  let repairsPair : ℚ × Bool :=
    match appliancesRes.data with
    | some as =>
      if as.length > 0 then
        let applianceIds := as.map (·.id)
        let repairsRes := fetchRepairs applianceIds
        let applianceRepairs : ℚ :=
          match repairsRes.data with
          | some rs => jsOrQ (sumCoalesced (rs.map (·.repair_cost))) 0
          | none => 0
        (applianceRepairs, true)
      else ((0 : ℚ), false)
    | none => ((0 : ℚ), false)
  let exteriorFeatures :=
    match featuresRes.data with
    | some fs => jsOrQ (sumCoalesced (fs.map (·.build_cost))) 0
    | none => 0
  let exteriorMaintenance :=
    match maintenanceRes.data with
    | some ms => jsOrQ (sumCoalesced (ms.map (·.cost))) 0
    | none => 0
  let totalCost := housePurchase + appliances + applianceInstallation +
    repairsPair.1 + exteriorFeatures + exteriorMaintenance
  { costs :=
      { housePurchase := housePurchase
        appliances := appliances
        applianceInstallation := applianceInstallation
        applianceRepairs := repairsPair.1
        exteriorFeatures := exteriorFeatures
        exteriorMaintenance := exteriorMaintenance
        totalCost := totalCost }
    repairLookupIssued := repairsPair.2 }

/-- Line 128 of the CostDashboard component:
`const profit = houseInfo?.price_sold ? houseInfo.price_sold - costs.totalCost : null`. -/
def profit (houseInfo : Option HouseInfo) (totalCost : ℚ) : Option ℚ :=
  if optTruthyQ (houseInfo.bind (·.price_sold)) then
    some ((houseInfo.bind (·.price_sold)).getD 0 - totalCost)
  else none

/-- Lines 129–133 of the CostDashboard component: the `yearsOwned`
conditional chain, with `new Date().getFullYear()` passed in as
`currentYear`. -/
def yearsOwned (houseInfo : Option HouseInfo) (currentYear : Int) : Option Int :=
  let yb := houseInfo.bind (·.year_bought)
  let ys := houseInfo.bind (·.year_sold)
  if optTruthyInt yb && optTruthyInt ys then some (ys.getD 0 - yb.getD 0)
  else if optTruthyInt yb then some (currentYear - yb.getD 0)
  else none

/-- Lines 158–169 of the CostDashboard component: the per-year figure is
rendered only inside `{yearsOwned && (... {yearsOwned > 0 && (...totalCost / yearsOwned...)})}`;
this returns the rendered quotient, or `none` when either guard fails. -/
def costPerYear (yo : Option Int) (totalCost : ℚ) : Option ℚ :=
  if optTruthyInt yo then
    if yo.getD 0 > 0 then some (totalCost / ((yo.getD 0 : Int) : ℚ))
    else none
  else none

/-- JS `word.toLowerCase()` on the character list of a word (ASCII room
types; `Char.toLower` matches JS on ASCII). -/
def lowerChars (w : List Char) : List Char := w.map Char.toLower

/-- `pluralizeWord` of the HouseDetails component: ordered suffix rules,
each tested on `word.toLowerCase()`, transforming the original word. -/
def pluralizeWord (word : List Char) : List Char :=
  if ['y'].isSuffixOf (lowerChars word) then word.dropLast ++ ['i', 'e', 's']
  else if ['c', 'h'].isSuffixOf (lowerChars word) || ['s', 'h'].isSuffixOf (lowerChars word)
      || ['s'].isSuffixOf (lowerChars word) || ['x'].isSuffixOf (lowerChars word)
      || ['z'].isSuffixOf (lowerChars word) then word ++ ['e', 's']
  else word ++ ['s']

/-- JS `str.split(' ')`: splits at every single space, keeping empty
segments, and yields `[""]` on the empty string. -/
def jsSplitSpace : List Char → List (List Char)
  | [] => [[]]
  | c :: rest =>
    match jsSplitSpace rest with
    | [] => [[c]]
    | w :: ws => if c = ' ' then [] :: w :: ws else (c :: w) :: ws

/-- `pluralizeRoomType` of the HouseDetails component. The compound-word
branch (`roomType.includes(' ')`) replaces `words[words.length - 1]` by
its pluralization and rejoins with `' '`. The count is a JS number
(the rooms migration made `count` decimal), hence `ℚ`. -/
def pluralizeRoomType (roomType : List Char) (count : ℚ) : List Char :=
  if count ≤ 1 then roomType
  else if roomType.any (fun c => c == ' ') then
    let words := jsSplitSpace roomType
    let words2 := words.set (words.length - 1) (pluralizeWord (words.getLastD []))
    List.intercalate [' '] words2
  else pluralizeWord roomType

/-- A `houses` row as used by the ownership check of
`soft_delete_appliance` (`houses.id`, `houses.user_id`). -/
structure DbHouse where
  id : Nat
  user_id : Nat
deriving DecidableEq, Repr

/-- An `interior_appliances` row as touched by `soft_delete_appliance`. -/
structure DbAppliance where
  id : Nat
  house_id : Nat
  deleted_at : Option Nat
deriving DecidableEq, Repr

/-- An `appliance_repairs` row as touched by `soft_delete_appliance`. -/
structure DbRepair where
  id : Nat
  appliance_id : Nat
  deleted_at : Option Nat
deriving DecidableEq, Repr

/-- An `appliance_attachments` row as touched by `soft_delete_appliance`. -/
structure DbAttachment where
  id : Nat
  appliance_id : Nat
  deleted_at : Option Nat
deriving DecidableEq, Repr

/-- The tables `soft_delete_appliance` reads or writes. -/
structure Db where
  houses : List DbHouse
  appliances : List DbAppliance
  repairs : List DbRepair
  attachments : List DbAttachment
deriving DecidableEq, Repr

/-- The `soft_delete_appliance(appliance_id uuid)` stored procedure of
migration `20260109160803`: three consecutive UPDATEs with `now()` fixed
for the call. The appliance UPDATE requires the row to be live and its
house to be owned by `auth.uid()`; the repair and attachment UPDATEs
filter only on `appliance_id` and `deleted_at IS NULL`. -/
def soft_delete_appliance (db : Db) (authUid now applianceId : Nat) : Db :=
  { houses := db.houses
    appliances := db.appliances.map fun a =>
      if a.id == applianceId && a.deleted_at == none &&
          db.houses.any (fun h => h.id == a.house_id && h.user_id == authUid) then
        { a with deleted_at := some now }
      else a
    repairs := db.repairs.map fun r =>
      if r.appliance_id == applianceId && r.deleted_at == none then
        { r with deleted_at := some now }
      else r
    attachments := db.attachments.map fun t =>
      if t.appliance_id == applianceId && t.deleted_at == none then
        { t with deleted_at := some now }
      else t }

/-- A member of the `FileList` handed to `handleFileSelect`: its name,
byte size, MIME type (`file.type`, possibly the empty string) and the
data-URL the host `FileReader` produces for it is abstracted as the
`encode` argument of `handleFileSelect`. -/
structure JsFile where
  name : String
  size : Nat
  mime : String
deriving DecidableEq, Repr

/-- The `UploadedFile` interface of the FileUpload component;
`handleFileSelect` never sets `description`. -/
structure UploadedFile where
  file_name : String
  file_url : String
  file_type : String
  file_size : Nat
  description : Option String
deriving DecidableEq, Repr

/-- JS `a || b` on strings: the empty string is falsy. -/
def jsOrStr (a b : String) : String := if a = "" then b else a

/-- Observable outcome of one `handleFileSelect` call: the last value
`setError` left in place after the initial `setError('')` (`none` = still
cleared), the batch passed to `onFilesSelected`, and whether
`onFilesSelected` was invoked at all. -/
structure HandleResult where
  errorMsg : Option String
  added : List UploadedFile
  filesSelectedCalled : Bool
deriving DecidableEq, Repr

/-- Default of the `maxFiles` prop of `FileUpload`. -/
def defaultMaxFiles : Nat := 10

/-- Default of the `maxSizeMB` prop of `FileUpload`. -/
def defaultMaxSizeMB : Nat := 5

/-- The record pushed onto `uploadedFiles` for an in-limit file:
`{ file_name, file_url: base64, file_type: file.type || 'application/octet-stream', file_size }`. -/
def uploadedOf (encode : JsFile → String) (file : JsFile) : UploadedFile :=
  { file_name := file.name
    file_url := encode file
    file_type := jsOrStr file.mime "application/octet-stream"
    file_size := file.size
    description := none }

/-- The per-file error message `File ${file.name} exceeds ${maxSizeMB}MB limit`. -/
def sizeErrMsg (maxSizeMB : Nat) (file : JsFile) : String :=
  "File " ++ file.name ++ " exceeds " ++ toString maxSizeMB ++ "MB limit"

/-- One iteration of the `for (const file of fileArray)` loop, acting on
the pair (current error message, `uploadedFiles` so far). -/
def uploadStep (encode : JsFile → String) (maxSizeMB maxSize : Nat)
    (acc : Option String × List UploadedFile) (file : JsFile) :
    Option String × List UploadedFile :=
  if file.size > maxSize then (some (sizeErrMsg maxSizeMB file), acc.2)
  else (acc.1, acc.2 ++ [uploadedOf encode file])

/-- `FileUpload.handleFileSelect` on a non-null `FileList`, with the host
base64 data-URL encoder passed in as `encode` (the component's
`fileToBase64` resolves with `reader.result`). -/
def handleFileSelect (encode : JsFile → String) (existingCount maxFiles maxSizeMB : Nat)
    (fileArray : List JsFile) : HandleResult :=
  if existingCount + fileArray.length > maxFiles then
    { errorMsg := some ("Maximum " ++ toString maxFiles ++ " files allowed")
      added := []
      filesSelectedCalled := false }
  else
    let maxSize := maxSizeMB * 1024 * 1024
    let final := fileArray.foldl (uploadStep encode maxSizeMB maxSize) (none, [])
    { errorMsg := final.1
      added := final.2
      filesSelectedCalled := decide (final.2.length > 0) }

/-- Helper: `jsOrQ a 0` is the identity (JS `x || 0` on a number that is
already a number only rewrites `0` to `0`). -/
theorem jsOrQ_zero (a : ℚ) : jsOrQ a 0 = a := by
  unfold jsOrQ
  split <;> simp_all

/-- Helper: the JS `reduce`-with-coalescing equals the mathematical sum of
the coalesced costs. -/
theorem sumCoalesced_eq_sum (l : List (Option ℚ)) :
    sumCoalesced l = (l.map (fun c => c.getD 0)).sum := by
  suffices h : ∀ init : ℚ,
      l.foldl (fun sum c => sum + c.getD 0) init = init + (l.map (fun c => c.getD 0)).sum by
    simpa [sumCoalesced] using h 0
  induction l with
  | nil => intro init; simp
  | cons c t ih => intro init; simp [ih, List.sum_cons]; ring

/-- Claim C1: on successfully fetched data, every component of the
aggregate is the sum of its coalesced cost field (house purchase price, or
0 when the house row is absent), `totalCost` is exactly the sum of the six
components, and the end-to-end scenario of §8 (purchase 300000, appliance
1200 + 300 installation, repair 150, exterior feature 5000, maintenance
800) yields `totalCost = 307450`. -/
theorem totalCost_is_sum_of_components (house : HouseInfo) (apps : List ApplianceRow)
    (feats : List FeatureRow) (maints : List MaintenanceRow) (reps : List RepairRow)
    (eh ea ef em er : Option String) :
    (loadCosts ⟨some house, eh⟩ ⟨some apps, ea⟩ ⟨some feats, ef⟩ ⟨some maints, em⟩
        (fun _ => ⟨some reps, er⟩)).costs.totalCost =
      (loadCosts ⟨some house, eh⟩ ⟨some apps, ea⟩ ⟨some feats, ef⟩ ⟨some maints, em⟩
        (fun _ => ⟨some reps, er⟩)).costs.housePurchase +
      (loadCosts ⟨some house, eh⟩ ⟨some apps, ea⟩ ⟨some feats, ef⟩ ⟨some maints, em⟩
        (fun _ => ⟨some reps, er⟩)).costs.appliances +
      (loadCosts ⟨some house, eh⟩ ⟨some apps, ea⟩ ⟨some feats, ef⟩ ⟨some maints, em⟩
        (fun _ => ⟨some reps, er⟩)).costs.applianceInstallation +
      (loadCosts ⟨some house, eh⟩ ⟨some apps, ea⟩ ⟨some feats, ef⟩ ⟨some maints, em⟩
        (fun _ => ⟨some reps, er⟩)).costs.applianceRepairs +
      (loadCosts ⟨some house, eh⟩ ⟨some apps, ea⟩ ⟨some feats, ef⟩ ⟨some maints, em⟩
        (fun _ => ⟨some reps, er⟩)).costs.exteriorFeatures +
      (loadCosts ⟨some house, eh⟩ ⟨some apps, ea⟩ ⟨some feats, ef⟩ ⟨some maints, em⟩
        (fun _ => ⟨some reps, er⟩)).costs.exteriorMaintenance
    ∧ (loadCosts ⟨some house, eh⟩ ⟨some apps, ea⟩ ⟨some feats, ef⟩ ⟨some maints, em⟩
        (fun _ => ⟨some reps, er⟩)).costs.housePurchase = house.price_paid
    ∧ (loadCosts ⟨none, eh⟩ ⟨some apps, ea⟩ ⟨some feats, ef⟩ ⟨some maints, em⟩
        (fun _ => ⟨some reps, er⟩)).costs.housePurchase = 0
    ∧ (loadCosts ⟨some house, eh⟩ ⟨some apps, ea⟩ ⟨some feats, ef⟩ ⟨some maints, em⟩
        (fun _ => ⟨some reps, er⟩)).costs.appliances =
      (apps.map (fun a => a.purchase_cost.getD 0)).sum
    ∧ (loadCosts ⟨some house, eh⟩ ⟨some apps, ea⟩ ⟨some feats, ef⟩ ⟨some maints, em⟩
        (fun _ => ⟨some reps, er⟩)).costs.applianceInstallation =
      (apps.map (fun a => a.installation_cost.getD 0)).sum
    ∧ (loadCosts ⟨some house, eh⟩ ⟨some apps, ea⟩ ⟨some feats, ef⟩ ⟨some maints, em⟩
        (fun _ => ⟨some reps, er⟩)).costs.applianceRepairs =
      (if apps = [] then 0 else (reps.map (fun r => r.repair_cost.getD 0)).sum)
    ∧ (loadCosts ⟨some house, eh⟩ ⟨some apps, ea⟩ ⟨some feats, ef⟩ ⟨some maints, em⟩
        (fun _ => ⟨some reps, er⟩)).costs.exteriorFeatures =
      (feats.map (fun f => f.build_cost.getD 0)).sum
    ∧ (loadCosts ⟨some house, eh⟩ ⟨some apps, ea⟩ ⟨some feats, ef⟩ ⟨some maints, em⟩
        (fun _ => ⟨some reps, er⟩)).costs.exteriorMaintenance =
      (maints.map (fun m => m.cost.getD 0)).sum
    ∧ (loadCosts ⟨some ⟨some 2015, none, 300000, none, none, some .unitedStates⟩, none⟩
        ⟨some [⟨some 1200, some 300, 1⟩], none⟩ ⟨some [⟨some 5000⟩], none⟩
        ⟨some [⟨some 800⟩], none⟩ (fun _ => ⟨some [⟨some 150⟩], none⟩)).costs =
      ⟨300000, 1200, 300, 150, 5000, 800, 307450⟩ := by
  refine ⟨rfl, ?_, ?_, ?_, ?_, ?_, ?_, ?_, ?_⟩
  · simp [loadCosts, jsOrQ_zero]
  · simp [loadCosts]
  · simp [loadCosts, jsOrQ_zero, sumCoalesced_eq_sum, Function.comp_def]
  · simp [loadCosts, jsOrQ_zero, sumCoalesced_eq_sum, Function.comp_def]
  · rcases apps with _ | ⟨a, t⟩ <;> simp [loadCosts, jsOrQ_zero, sumCoalesced_eq_sum, Function.comp_def]
  · simp [loadCosts, jsOrQ_zero, sumCoalesced_eq_sum, Function.comp_def]
  · simp [loadCosts, jsOrQ_zero, sumCoalesced_eq_sum, Function.comp_def]
  · simp [loadCosts, sumCoalesced, jsOrQ]
    norm_num

/-- Claim C2: evaluating `loadCosts` at the failing input where every read
resolves with a supabase error record (`data = null`, `error` non-null):
the code never consults any `error` field, so its non-throwing path still
reaches `setCosts` and presents the fabricated all-zero breakdown as the
final aggregate, contradicting the stated failure contract. -/
theorem failed_reads_fabricate_zero_breakdown :
    loadCosts ⟨none, some "TypeError: Failed to fetch"⟩
        ⟨none, some "TypeError: Failed to fetch"⟩
        ⟨none, some "TypeError: Failed to fetch"⟩
        ⟨none, some "TypeError: Failed to fetch"⟩
        (fun _ => ⟨none, some "TypeError: Failed to fetch"⟩) =
      ⟨⟨0, 0, 0, 0, 0, 0, 0⟩, false⟩ := by
  simp [loadCosts]

/-- Claim C3: when the fetched set of non-deleted appliances is empty, the
aggregator issues no repair lookup (the guarded second phase is skipped)
and reports `applianceRepairs = 0`, whatever the other reads returned. -/
theorem empty_appliances_no_repair_lookup (houseRes : SupaResponse HouseInfo)
    (featuresRes : SupaResponse (List FeatureRow))
    (maintenanceRes : SupaResponse (List MaintenanceRow)) (ea : Option String)
    (fetchRepairs : List Nat → SupaResponse (List RepairRow)) :
    (loadCosts houseRes ⟨some [], ea⟩ featuresRes maintenanceRes
        fetchRepairs).repairLookupIssued = false
    ∧ (loadCosts houseRes ⟨some [], ea⟩ featuresRes maintenanceRes
        fetchRepairs).costs.applianceRepairs = 0 := by
  constructor <;> simp [loadCosts]

/-- Claim C4 (counterexample): a house with a recorded sale price of 0 —
present, hence by the claim the profit should be defined and equal
`0 − totalCost` — yields no profit at all, because the code's truthiness
test `houseInfo?.price_sold ?` treats 0 as absent. -/
theorem profit_counterexample_zero_sale_price :
    ((⟨some 2015, some 2020, 300000, some 0, none, none⟩ : HouseInfo).price_sold.isSome = true)
    ∧ profit (some ⟨some 2015, some 2020, 300000, some 0, none, none⟩) 100 = none
    ∧ profit (some ⟨some 2015, some 2020, 300000, some 0, none, none⟩) 100 ≠
        some ((0 : ℚ) - 100) := by
  refine ⟨rfl, ?_, ?_⟩ <;> simp [profit, optTruthyQ]

/-- Claim C4 (amended): profit is defined if and only if a sale price is
present and nonzero; when defined it equals `salePrice − totalCost` (which
may be negative); when the sale price is absent or zero, profit is absent,
not zero. -/
theorem profit_defined_iff_nonzero_sale_price (hi : HouseInfo) (tc : ℚ) :
    (∀ p : ℚ, hi.price_sold = some p → p ≠ 0 → profit (some hi) tc = some (p - tc))
    ∧ ((hi.price_sold = none ∨ hi.price_sold = some 0) → profit (some hi) tc = none) := by
  constructor
  · intro p hp hpne
    simp [profit, optTruthyQ, hp, hpne]
  · rintro (h | h) <;> simp [profit, optTruthyQ, h]

/-- Witness for the amended C4: a house sold for 100 against a total cost
of 150 has profit `100 − 150` (negative), and a house with no sale price
has no profit. -/
theorem profit_defined_iff_nonzero_sale_price_witness :
    profit (some ⟨some 2015, some 2020, 300000, some 100, none, none⟩) 150 =
      some ((100 : ℚ) - 150)
    ∧ profit (some ⟨some 2015, some 2020, 300000, none, none, none⟩) 150 = none :=
  ⟨(profit_defined_iff_nonzero_sale_price
      ⟨some 2015, some 2020, 300000, some 100, none, none⟩ 150).1 100 rfl (by norm_num),
   (profit_defined_iff_nonzero_sale_price
      ⟨some 2015, some 2020, 300000, none, none, none⟩ 150).2 (Or.inl rfl)⟩

/-- Claim C5: the per-year figure is rendered exactly when `yearsOwned` is
present and strictly positive (the `{yearsOwned && ...}` and
`{yearsOwned > 0 && ...}` guards), and then equals
`totalCost / yearsOwned`; zero or negative years never produce one. -/
theorem costPerYear_defined_iff_positive_years (yo : Option Int) (tc : ℚ) :
    ((costPerYear yo tc).isSome ↔ ∃ y : Int, yo = some y ∧ 0 < y)
    ∧ (∀ y : Int, yo = some y → 0 < y → costPerYear yo tc = some (tc / (y : ℚ))) := by
  constructor
  · rcases yo with _ | y
    · simp [costPerYear, optTruthyInt]
    · by_cases hy : 0 < y
      · have hne : y ≠ 0 := by omega
        simp [costPerYear, optTruthyInt, hne, hy]
      · by_cases hz : y = 0
        · simp [costPerYear, optTruthyInt, hz]
        · simp [costPerYear, optTruthyInt, hz, hy]
  · intro y hy hpos
    have hne : y ≠ 0 := by omega
    simp [costPerYear, optTruthyInt, hy, hne, hpos]

/-- Witness for C5: four years of ownership at total cost 20 renders a
per-year figure of `20 / 4`. -/
theorem costPerYear_defined_iff_positive_years_witness :
    costPerYear (some 4) 20 = some ((20 : ℚ) / ((4 : Int) : ℚ)) :=
  (costPerYear_defined_iff_positive_years (some 4) 20).2 4 rfl (by decide)

/-- Claim C6 (counterexample): with purchase year 2020 and sale year 0 —
both present, so by the claim `yearsOwned` should be `0 − 2020` — the code
falls through the truthiness test of `year_sold` into the
`currentYear − year_bought` branch and yields 6 at current year 2026. -/
theorem yearsOwned_counterexample_zero_sale_year :
    ((⟨some 2020, some 0, 300000, none, none, none⟩ : HouseInfo).year_bought.isSome = true)
    ∧ ((⟨some 2020, some 0, 300000, none, none, none⟩ : HouseInfo).year_sold.isSome = true)
    ∧ yearsOwned (some ⟨some 2020, some 0, 300000, none, none, none⟩) 2026 = some 6
    ∧ yearsOwned (some ⟨some 2020, some 0, 300000, none, none, none⟩) 2026 ≠
        some ((0 : Int) - 2020) := by
  refine ⟨rfl, rfl, ?_, ?_⟩ <;> simp [yearsOwned, optTruthyInt]

/-- Claim C6 (amended): `yearsOwned` equals `saleYear − purchaseYear` when
both years are present and nonzero; equals `currentYear − purchaseYear`
when the purchase year is present and nonzero while the sale year is
absent or zero; and is undefined when the purchase year is absent or
zero. -/
theorem yearsOwned_cases (hi : HouseInfo) (cy : Int) :
    (∀ b s : Int, hi.year_bought = some b → b ≠ 0 → hi.year_sold = some s → s ≠ 0 →
        yearsOwned (some hi) cy = some (s - b))
    ∧ (∀ b : Int, hi.year_bought = some b → b ≠ 0 →
        (hi.year_sold = none ∨ hi.year_sold = some 0) →
        yearsOwned (some hi) cy = some (cy - b))
    ∧ ((hi.year_bought = none ∨ hi.year_bought = some 0) →
        yearsOwned (some hi) cy = none) := by
  refine ⟨?_, ?_, ?_⟩
  · intro b s hb hbne hs hsne
    simp [yearsOwned, optTruthyInt, hb, hs, hbne, hsne]
  · rintro b hb hbne (hs | hs) <;> simp [yearsOwned, optTruthyInt, hb, hs, hbne]
  · rintro (hb | hb) <;> simp [yearsOwned, optTruthyInt, hb]

/-- Witness for the amended C6: bought 2015/sold 2020 gives `2020 − 2015`;
bought 2020 and never sold gives `2026 − 2020` at current year 2026; no
purchase year gives no figure. -/
theorem yearsOwned_cases_witness :
    yearsOwned (some ⟨some 2015, some 2020, 300000, none, none, none⟩) 2026 =
      some ((2020 : Int) - 2015)
    ∧ yearsOwned (some ⟨some 2020, none, 300000, none, none, none⟩) 2026 =
      some ((2026 : Int) - 2020)
    ∧ yearsOwned (some ⟨none, some 2020, 300000, none, none, none⟩) 2026 = none :=
  ⟨(yearsOwned_cases ⟨some 2015, some 2020, 300000, none, none, none⟩ 2026).1
      2015 2020 rfl (by decide) rfl (by decide),
   (yearsOwned_cases ⟨some 2020, none, 300000, none, none, none⟩ 2026).2.1
      2020 rfl (by decide) (Or.inl rfl),
   (yearsOwned_cases ⟨none, some 2020, 300000, none, none, none⟩ 2026).2.2
      (Or.inl rfl)⟩

/-- Claim C7: the country mapping is as specified for United States,
Canada, Mexico, Other and the null fallback, `getCurrencySymbol('Mexico')`
is `MX$`, `getCurrencySymbol(null)` is `$`, and
`formatCurrency(1234.5, 'Canada')` hands `Intl.NumberFormat` the pair
CAD/en-CA with 2 minimum and 2 maximum fraction digits — but for the
United Kingdom the source's symbol is the mojibake two-character string
`"Â£"` (U+00C2 U+00A3), not the pound sign `"£"` the claim states. -/
theorem currency_mapping_uk_symbol_mojibake :
    currencyMap .unitedStates = ⟨"USD", "$", "en-US"⟩
    ∧ currencyMap .canada = ⟨"CAD", "C$", "en-CA"⟩
    ∧ currencyMap .mexico = ⟨"MXN", "MX$", "es-MX"⟩
    ∧ currencyMap .other = ⟨"USD", "$", "en-US"⟩
    ∧ getCurrencySymbol (some .mexico) = "MX$"
    ∧ getCurrencySymbol none = "$"
    ∧ formatCurrency (1234.5 : ℚ) (some .canada) none none =
        ⟨"en-CA", "CAD", 2, 2, 1234.5⟩
    ∧ currencyMap .unitedKingdom = ⟨"GBP", "Â£", "en-GB"⟩
    ∧ getCurrencySymbol (some .unitedKingdom) ≠ "£" := by
  refine ⟨rfl, rfl, rfl, rfl, rfl, rfl, ?_, rfl, by decide⟩
  simp [formatCurrency, currencyMap]

/-- Helper: JS `split(' ')` never produces an empty array. -/
theorem jsSplitSpace_ne_nil (s : List Char) : jsSplitSpace s ≠ [] := by
  cases s with
  | nil => simp [jsSplitSpace]
  | cons c rest =>
    rcases hr : jsSplitSpace rest with _ | ⟨w, ws⟩
    · simp [jsSplitSpace, hr]
    · by_cases hc : c = ' ' <;> simp [jsSplitSpace, hr, hc]

/-- Helper: splitting a string that contains no space yields exactly the
one-element array holding the whole string. -/
theorem jsSplitSpace_no_space (s : List Char) (h : s.any (fun c => c == ' ') = false) :
    jsSplitSpace s = [s] := by
  induction s with
  | nil => rfl
  | cons c rest ih =>
    simp only [List.any_cons, Bool.or_eq_false_iff, beq_eq_false_iff_ne] at h
    simp [jsSplitSpace, ih h.2, h.1]

/-- Helper: writing at the last index of a non-empty list is dropping the
last element and appending the new one. -/
theorem set_last_eq_dropLast_append {α : Type} (ws : List α) (x : α) (h : ws ≠ []) :
    ws.set (ws.length - 1) x = ws.dropLast ++ [x] := by
  induction ws with
  | nil => cases h rfl
  | cons a t ih =>
    cases t with
    | nil => rfl
    | cons b t2 =>
      have ht : (b :: t2 : List α) ≠ [] := by simp
      have hlen : (a :: b :: t2 : List α).length - 1 = ((b :: t2 : List α).length - 1) + 1 := by
        simp
      rw [hlen, List.set_cons_succ, ih ht]
      simp

/-- Claim C8: a count of at most 1 returns the room-type name unchanged;
a count above 1 pluralizes exactly the final space-separated word of the
name (the rest joined back unchanged); `pluralizeWord` applies the ordered
suffix rules — a word whose lowercasing ends in `y` drops its last
character and appends `ies`, otherwise a lowercased ending in `ch`, `sh`,
`s`, `x` or `z` appends `es`, otherwise `s` — testing the suffix
case-insensitively while transforming the original word; and the five
quoted examples hold. -/
theorem pluralize_final_word_ordered_rules (name : List Char) (count : ℚ) :
    (count ≤ 1 → pluralizeRoomType name count = name)
    ∧ (1 < count → pluralizeRoomType name count =
        List.intercalate [' '] ((jsSplitSpace name).dropLast ++
          [pluralizeWord ((jsSplitSpace name).getLastD [])]))
    ∧ (∀ w : List Char,
        (['y'].isSuffixOf (lowerChars w) = true →
          pluralizeWord w = w.dropLast ++ ['i', 'e', 's'])
        ∧ (['y'].isSuffixOf (lowerChars w) = false →
            (['c', 'h'].isSuffixOf (lowerChars w) || ['s', 'h'].isSuffixOf (lowerChars w)
              || ['s'].isSuffixOf (lowerChars w) || ['x'].isSuffixOf (lowerChars w)
              || ['z'].isSuffixOf (lowerChars w)) = true →
            pluralizeWord w = w ++ ['e', 's'])
        ∧ (['y'].isSuffixOf (lowerChars w) = false →
            (['c', 'h'].isSuffixOf (lowerChars w) || ['s', 'h'].isSuffixOf (lowerChars w)
              || ['s'].isSuffixOf (lowerChars w) || ['x'].isSuffixOf (lowerChars w)
              || ['z'].isSuffixOf (lowerChars w)) = false →
            pluralizeWord w = w ++ ['s']))
    ∧ pluralizeRoomType "Bedroom".toList 1 = "Bedroom".toList
    ∧ pluralizeRoomType "Bedroom".toList 2 = "Bedrooms".toList
    ∧ pluralizeRoomType "Living Room".toList 3 = "Living Rooms".toList
    ∧ pluralizeRoomType "Family".toList 2 = "Families".toList
    ∧ pluralizeRoomType "Bench".toList 2 = "Benches".toList
    ∧ pluralizeRoomType "Patio".toList 2 = "Patios".toList := by
  refine ⟨?_, ?_, ?_, by decide, by decide, by decide, by decide, by decide, by decide⟩
  · intro hle
    simp [pluralizeRoomType, hle]
  · intro hgt
    have hnle : ¬ count ≤ 1 := not_le.mpr hgt
    by_cases hsp : name.any (fun c => c == ' ') = true
    · simp only [pluralizeRoomType, if_neg hnle, if_pos hsp]
      rw [set_last_eq_dropLast_append _ _ (jsSplitSpace_ne_nil name)]
    · have hsp2 : name.any (fun c => c == ' ') = false := eq_false_of_ne_true hsp
      simp only [pluralizeRoomType, if_neg hnle, if_neg hsp,
        jsSplitSpace_no_space name hsp2]
      simp [List.intercalate, List.intersperse]
  · intro w
    refine ⟨?_, ?_, ?_⟩
    · intro hy
      simp [pluralizeWord, hy]
    · intro hy hsuf
      simp [pluralizeWord, hy, hsuf]
    · intro hy hsuf
      simp [pluralizeWord, hy, hsuf]

/-- Witness for C8: the unchanged case at count 1, the compound
decomposition at count 3, and the `y → ies` rule on `Family`. -/
theorem pluralize_final_word_ordered_rules_witness :
    pluralizeRoomType "Bedroom".toList 1 = "Bedroom".toList
    ∧ pluralizeRoomType "Living Room".toList 3 =
        List.intercalate [' '] ((jsSplitSpace "Living Room".toList).dropLast ++
          [pluralizeWord ((jsSplitSpace "Living Room".toList).getLastD [])])
    ∧ pluralizeWord "Family".toList = "Family".toList.dropLast ++ ['i', 'e', 's'] :=
  ⟨(pluralize_final_word_ordered_rules "Bedroom".toList 1).1 (by norm_num),
   (pluralize_final_word_ordered_rules "Living Room".toList 3).2.1 (by norm_num),
   ((pluralize_final_word_ordered_rules "Living Room".toList 3).2.2.1
      "Family".toList).1 (by decide)⟩

/-- Helper: mapping a function that fixes every element of a list leaves
the list unchanged. -/
theorem map_eq_self {α : Type} (l : List α) (f : α → α) (h : ∀ a ∈ l, f a = a) :
    l.map f = l := by
  induction l with
  | nil => rfl
  | cons a t ih =>
    simp only [List.map_cons, h a (by simp)]
    rw [ih (fun b hb => h b (by simp [hb]))]

/-- Claim C9: in `soft_delete_appliance`, the repair and attachment
UPDATEs filter only on `appliance_id` and liveness — the
`auth.uid()`-ownership EXISTS guards only the appliance UPDATE — so a call
by a user owning none of the appliance's houses leaves the appliance table
untouched while every live repair and attachment of that appliance is
still stamped deleted. -/
theorem soft_delete_cascade_ignores_ownership (db : Db) (uid now aid : Nat) :
    ((∀ a ∈ db.appliances, a.id = aid →
        ∀ h ∈ db.houses, h.id = a.house_id → h.user_id ≠ uid) →
      (soft_delete_appliance db uid now aid).appliances = db.appliances)
    ∧ (∀ r ∈ db.repairs, r.appliance_id = aid → r.deleted_at = none →
        ({ r with deleted_at := some now } : DbRepair) ∈
          (soft_delete_appliance db uid now aid).repairs)
    ∧ (∀ t ∈ db.attachments, t.appliance_id = aid → t.deleted_at = none →
        ({ t with deleted_at := some now } : DbAttachment) ∈
          (soft_delete_appliance db uid now aid).attachments) := by
  refine ⟨?_, ?_, ?_⟩
  · intro hown
    apply map_eq_self
    intro a ha
    by_cases hid : a.id = aid
    · have hany : (db.houses.any fun h => h.id == a.house_id && h.user_id == uid) = false := by
        simp only [List.any_eq_false, Bool.and_eq_true, beq_iff_eq, not_and]
        intro h hh hhid
        exact hown a ha hid h hh hhid
      simp [hany]
    · simp [hid]
  · intro r hr hraid hrdel
    simp only [soft_delete_appliance]
    refine List.mem_map.mpr ⟨r, hr, ?_⟩
    simp [hraid, hrdel]
  · intro t ht htaid htdel
    simp only [soft_delete_appliance]
    refine List.mem_map.mpr ⟨t, ht, ?_⟩
    simp [htaid, htdel]

/-- Witness for C9: user 8 calls `soft_delete_appliance` on appliance 10,
which belongs to house 1 owned by user 7: the appliance row stays live,
while its repair 100 and attachment 200 come out stamped deleted. -/
theorem soft_delete_cascade_ignores_ownership_witness :
    (soft_delete_appliance ⟨[⟨1, 7⟩], [⟨10, 1, none⟩], [⟨100, 10, none⟩], [⟨200, 10, none⟩]⟩
        8 99 10).appliances = [⟨10, 1, none⟩]
    ∧ (⟨100, 10, some 99⟩ : DbRepair) ∈
        (soft_delete_appliance ⟨[⟨1, 7⟩], [⟨10, 1, none⟩], [⟨100, 10, none⟩], [⟨200, 10, none⟩]⟩
          8 99 10).repairs
    ∧ (⟨200, 10, some 99⟩ : DbAttachment) ∈
        (soft_delete_appliance ⟨[⟨1, 7⟩], [⟨10, 1, none⟩], [⟨100, 10, none⟩], [⟨200, 10, none⟩]⟩
          8 99 10).attachments :=
  ⟨(soft_delete_cascade_ignores_ownership
      ⟨[⟨1, 7⟩], [⟨10, 1, none⟩], [⟨100, 10, none⟩], [⟨200, 10, none⟩]⟩ 8 99 10).1 (by decide),
   (soft_delete_cascade_ignores_ownership
      ⟨[⟨1, 7⟩], [⟨10, 1, none⟩], [⟨100, 10, none⟩], [⟨200, 10, none⟩]⟩ 8 99 10).2.1
      ⟨100, 10, none⟩ (by decide) rfl rfl,
   (soft_delete_cascade_ignores_ownership
      ⟨[⟨1, 7⟩], [⟨10, 1, none⟩], [⟨100, 10, none⟩], [⟨200, 10, none⟩]⟩ 8 99 10).2.2
      ⟨200, 10, none⟩ (by decide) rfl rfl⟩

/-- Helper: the upload loop appends exactly the in-limit files, in order,
as their uploaded records. -/
theorem uploadStep_foldl_added (encode : JsFile → String) (maxSizeMB maxSize : Nat)
    (l : List JsFile) :
    ∀ (e : Option String) (acc : List UploadedFile),
      (l.foldl (uploadStep encode maxSizeMB maxSize) (e, acc)).2 =
        acc ++ (l.filter (fun f => f.size ≤ maxSize)).map (uploadedOf encode) := by
  induction l with
  | nil => intro e acc; simp
  | cons f t ih =>
    intro e acc
    by_cases hf : f.size > maxSize
    · have hfe : ¬ f.size ≤ maxSize := not_le.mpr hf
      simp [uploadStep, hf, hfe, ih]
    · have hfe : f.size ≤ maxSize := not_lt.mp hf
      simp [uploadStep, hf, hfe, ih]

/-- Helper: once an error message is set, the upload loop never clears it. -/
theorem uploadStep_foldl_err_mono (encode : JsFile → String) (maxSizeMB maxSize : Nat)
    (l : List JsFile) :
    ∀ (e : Option String) (acc : List UploadedFile), e.isSome = true →
      ((l.foldl (uploadStep encode maxSizeMB maxSize) (e, acc)).1).isSome = true := by
  induction l with
  | nil => intro e acc he; simpa using he
  | cons f t ih =>
    intro e acc he
    by_cases hf : f.size > maxSize
    · simpa [uploadStep, hf] using
        ih (some (sizeErrMsg maxSizeMB f)) acc (by simp)
    · simpa [uploadStep, hf] using ih e (acc ++ [uploadedOf encode f]) he

/-- Helper: an oversized file in the batch leaves the loop with an error
message set. -/
theorem uploadStep_foldl_err_of_oversize (encode : JsFile → String) (maxSizeMB maxSize : Nat)
    (l : List JsFile) :
    ∀ (e : Option String) (acc : List UploadedFile),
      (∃ f ∈ l, maxSize < f.size) →
      ((l.foldl (uploadStep encode maxSizeMB maxSize) (e, acc)).1).isSome = true := by
  induction l with
  | nil =>
    intro e acc hex
    simp at hex
  | cons f t ih =>
    intro e acc hex
    by_cases hf : f.size > maxSize
    · simpa [uploadStep, hf] using
        uploadStep_foldl_err_mono encode maxSizeMB maxSize t
          (some (sizeErrMsg maxSizeMB f)) acc (by simp)
    · rcases hex with ⟨g, hg, hgsz⟩
      rcases List.mem_cons.mp hg with hg | hg
      · exact absurd (hg ▸ hgsz) hf
      · simpa [uploadStep, hf] using
          ih e (acc ++ [uploadedOf encode f]) ⟨g, hg, hgsz⟩

/-- Claim C10: a batch that would push the total file count above
`maxFiles` is rejected whole — the count error message is set and no file
is added — while an in-count batch adds exactly its in-limit files (each
encoded through the base64 encoder, with MIME default applied), leaves an
error message set whenever some file of the batch exceeded the
`maxSizeMB` cap, and calls `onFilesSelected` exactly when at least one
file survived; the prop defaults are 10 files and 5 MB. -/
theorem file_batch_limits (encode : JsFile → String) (existingCount maxFiles maxSizeMB : Nat)
    (fileArray : List JsFile) :
    (existingCount + fileArray.length > maxFiles →
      handleFileSelect encode existingCount maxFiles maxSizeMB fileArray =
        ⟨some ("Maximum " ++ toString maxFiles ++ " files allowed"), [], false⟩)
    ∧ (existingCount + fileArray.length ≤ maxFiles →
      (handleFileSelect encode existingCount maxFiles maxSizeMB fileArray).added =
        (fileArray.filter (fun f => f.size ≤ maxSizeMB * 1024 * 1024)).map
          (uploadedOf encode))
    ∧ (existingCount + fileArray.length ≤ maxFiles →
      ∀ f ∈ fileArray, maxSizeMB * 1024 * 1024 < f.size →
        ((handleFileSelect encode existingCount maxFiles maxSizeMB
            fileArray).errorMsg).isSome = true)
    ∧ (existingCount + fileArray.length ≤ maxFiles →
      (handleFileSelect encode existingCount maxFiles maxSizeMB
          fileArray).filesSelectedCalled =
        decide ((fileArray.filter (fun f => f.size ≤ maxSizeMB * 1024 * 1024)) ≠ []))
    ∧ defaultMaxFiles = 10 ∧ defaultMaxSizeMB = 5 := by
  refine ⟨?_, ?_, ?_, ?_, rfl, rfl⟩
  · intro hover
    simp [handleFileSelect, hover]
  · intro hle
    have hno : ¬ existingCount + fileArray.length > maxFiles := not_lt.mpr hle
    simp only [handleFileSelect, if_neg hno]
    exact uploadStep_foldl_added encode maxSizeMB (maxSizeMB * 1024 * 1024) fileArray none []
  · intro hle f hf hfsz
    have hno : ¬ existingCount + fileArray.length > maxFiles := not_lt.mpr hle
    simp only [handleFileSelect, if_neg hno]
    exact uploadStep_foldl_err_of_oversize encode maxSizeMB (maxSizeMB * 1024 * 1024)
      fileArray none [] ⟨f, hf, hfsz⟩
  · intro hle
    have hno : ¬ existingCount + fileArray.length > maxFiles := not_lt.mpr hle
    simp only [handleFileSelect, if_neg hno,
      uploadStep_foldl_added encode maxSizeMB (maxSizeMB * 1024 * 1024) fileArray none []]
    simp [List.length_pos]

/-- Witness for C10: with 9 existing files, a 2-file batch is rejected
whole; with none existing, a batch of an in-limit file, an oversized file
and another in-limit file adds exactly the two in-limit records, reports
an error, and fires the callback. -/
theorem file_batch_limits_witness :
    handleFileSelect (fun f => "data:" ++ f.name) 9 10 5
        [⟨"a.png", 100, "image/png"⟩, ⟨"b.png", 100, ""⟩] =
      ⟨some ("Maximum " ++ toString 10 ++ " files allowed"), [], false⟩
    ∧ (handleFileSelect (fun f => "data:" ++ f.name) 0 10 5
        [⟨"a.png", 100, "image/png"⟩, ⟨"big.png", 6291456, ""⟩, ⟨"c.txt", 50, ""⟩]).added =
      ([⟨"a.png", 100, "image/png"⟩, ⟨"big.png", 6291456, ""⟩, ⟨"c.txt", 50, ""⟩].filter
          (fun f => f.size ≤ 5 * 1024 * 1024)).map (uploadedOf (fun f => "data:" ++ f.name))
    ∧ ((handleFileSelect (fun f => "data:" ++ f.name) 0 10 5
        [⟨"a.png", 100, "image/png"⟩, ⟨"big.png", 6291456, ""⟩, ⟨"c.txt", 50, ""⟩]).errorMsg).isSome
        = true :=
  ⟨(file_batch_limits (fun f => "data:" ++ f.name) 9 10 5
      [⟨"a.png", 100, "image/png"⟩, ⟨"b.png", 100, ""⟩]).1 (by decide),
   (file_batch_limits (fun f => "data:" ++ f.name) 0 10 5
      [⟨"a.png", 100, "image/png"⟩, ⟨"big.png", 6291456, ""⟩, ⟨"c.txt", 50, ""⟩]).2.1 (by decide),
   (file_batch_limits (fun f => "data:" ++ f.name) 0 10 5
      [⟨"a.png", 100, "image/png"⟩, ⟨"big.png", 6291456, ""⟩, ⟨"c.txt", 50, ""⟩]).2.2.1 (by decide)
      ⟨"big.png", 6291456, ""⟩ (by decide) (by decide)⟩

end HouseLifeNotes
